import Mathlib

/-!
Verification of the note-taking app's client document-sync logic
(`src/frontend/src/App.js`). The definitions below are shallow embeddings of
the pure state-update functions that the React component passes to its state
setters, together with the constants of its polling and timer logic. The
backend (Django) is not part of the sources; where a claim depends on it, the
backend behaviour is modelled from the specification and marked as such.
-/

/-- Ingestion status of a document as reported by the server
(`'uploaded' | 'processing' | 'completed' | 'failed'` in App.js). -/
inductive Status where
  | uploaded
  | processing
  | completed
  | failed
deriving DecidableEq, Repr

/-- Content type of a generated artifact (`contentType` field in App.js,
one of `'notes' | 'summary' | 'quiz'`). -/
inductive ContentType where
  | notes
  | summary
  | quiz
deriving DecidableEq, Repr

/-- One generated artifact (`GeneratedContent` in the spec; the objects
held in a document's `generated_content` array in App.js). -/
structure GeneratedContent where
  contentType : ContentType
  contentData : String
deriving DecidableEq, Repr

/-- A document record as held in the client's `documents` state array.
`status` is an `Option` because the client deliberately stores `null`
for the "completed, display cleared" cosmetic state. -/
structure Doc where
  id : String
  filename : String
  status : Option Status
  generated_content : List GeneratedContent
deriving DecidableEq, Repr

/-! ## Polling decision (App.js lines 1921-1937)

The polling `useEffect` returns early (schedules nothing) when no user is
logged in or the active page is not `'Notes'`; otherwise it computes
`processingDocs` and `hasActiveDocument`, returns early when both are false,
and else schedules `setInterval(fetchDocuments, pollInterval)` with
`pollInterval = hasActiveDocument ? 3000 : 5000`. `pollDecision` returns
`some interval` exactly when the effect schedules an interval. -/

/-- The interval decision of the polling effect: `none` when the effect
schedules no poll, `some ms` when it schedules a repeating poll every
`ms` milliseconds. Mirrors App.js lines 1922-1934. -/
def pollDecision (hasUser : Bool) (activePage : String) (documents : List Doc)
    (activeDocument : Option Doc) : Option Nat :=
  if !hasUser || activePage != "Notes" then none
  else
    let processingDocs := documents.any (fun doc => doc.status == some Status.processing)
    let hasActiveDocument := activeDocument.isSome
    if !processingDocs && !hasActiveDocument then none
    else some (if hasActiveDocument then 3000 else 5000)

/-! ## Fetch reconciliation (App.js lines 1885-1919)

`fetchDocuments` merges the server response into the previous client list:
on initial load every `'completed'` document is stored with `null` status,
a previously-cleared (`null`) status is not overwritten by `'completed'`,
and every other document keeps the server-reported status. It then updates
the active document from the raw server response without ever clearing it. -/

/-- Per-document reconciliation performed inside the `docs.map` of
`fetchDocuments` (App.js lines 1893-1904): `prevDocs` is the previous
client list, `isInitialLoad` the `prevDocs.length === 0` flag computed
once for the whole merge, `doc` the server-reported document. -/
def reconcileDoc (prevDocs : List Doc) (isInitialLoad : Bool) (doc : Doc) : Doc :=
  match prevDocs.find? (fun d => d.id == doc.id) with
  | some prevDoc =>
    if prevDoc.status == none && doc.status == some Status.completed then
      { doc with status := none }
    else if isInitialLoad && doc.status == some Status.completed then
      { doc with status := none }
    else doc
  | none =>
    if isInitialLoad && doc.status == some Status.completed then
      { doc with status := none }
    else doc

/-- The full list merge of `fetchDocuments` (App.js lines 1890-1905):
`isInitialLoad` is `prevDocs.length === 0` and the server list is mapped
through the per-document reconciliation. -/
def mergeDocuments (prevDocs serverDocs : List Doc) : List Doc :=
  let isInitialLoad := prevDocs.length == 0
  serverDocs.map (reconcileDoc prevDocs isInitialLoad)

/-- Masking applied on initial load: a `'completed'` server status is
displayed as `null`, everything else is kept (the behaviour
`mergeDocuments [] serverDocs` is proved to coincide with). -/
def maskCompleted (doc : Doc) : Doc :=
  if doc.status == some Status.completed then { doc with status := none } else doc

/-- The active-document update of `fetchDocuments` (App.js lines
1907-1913): if there is an active document, the authoritative copy from
the raw server response replaces it when present, otherwise the previous
active document is kept; a `null` active selection stays `null`. -/
def reconcileActive (prevActiveDoc : Option Doc) (serverDocs : List Doc) : Option Doc :=
  match prevActiveDoc with
  | some a => some ((serverDocs.find? (fun d => d.id == a.id)).getD a)
  | none => none

/-! ## Theorems for claims C3, C4, C9, C10 -/

/-- C3. The claim states a poll is scheduled whenever some document is
processing or a document is actively viewed; but the effect also requires a
logged-in user on the Notes page, so a processing document on another page
schedules no poll. Concrete refutation: one processing document, page
`"Settings"`, no poll. -/
theorem pollDecision_not_notes_counterexample :
    pollDecision true "Settings"
      [{ id := "d1", filename := "a.txt", status := some Status.processing,
         generated_content := [] }] none = none ∧
    ([({ id := "d1", filename := "a.txt", status := some Status.processing,
         generated_content := [] } : Doc)].any
      (fun doc => doc.status == some Status.processing)) = true := by
  constructor <;> rfl

/-- C3 (amended). The polling effect schedules a repeating poll exactly when
a user is logged in, the Notes page is active, and some document is
processing or a document is actively viewed; in every other state — in
particular whenever no document is processing and none is viewed — it
schedules no poll. -/
theorem pollDecision_stop_condition (hasUser : Bool) (activePage : String)
    (documents : List Doc) (activeDocument : Option Doc) :
    (pollDecision hasUser activePage documents activeDocument).isSome = true ↔
      (hasUser = true ∧ activePage = "Notes" ∧
        (documents.any (fun doc => doc.status == some Status.processing) = true ∨
          activeDocument.isSome = true)) := by
  unfold pollDecision
  cases hasUser <;>
    by_cases hp : activePage = "Notes" <;>
      by_cases hproc :
          documents.any (fun doc => doc.status == some Status.processing) = true <;>
        by_cases hact : activeDocument.isSome = true <;>
          simp_all [bne_iff_ne]

/-- C4. Whenever the effect schedules a poll, an actively viewed document
yields the 3000 ms interval, while processing documents with no active
document yield the 5000 ms interval, and 3000 is strictly shorter. -/
theorem pollDecision_interval (documents : List Doc) (a : Doc)
    (hproc : documents.any (fun doc => doc.status == some Status.processing) = true) :
    pollDecision true "Notes" documents (some a) = some 3000 ∧
    pollDecision true "Notes" documents none = some 5000 ∧
    3000 < 5000 := by
  refine ⟨?_, ?_, by norm_num⟩
  · unfold pollDecision
    by_cases hp : documents.any (fun doc => doc.status == some Status.processing) = true <;>
      simp_all
  · unfold pollDecision
    simp [hproc]

/-- Evaluation of the C4 theorem at a concrete state: one processing
document, once viewed and once not. -/
theorem pollDecision_interval_witness :
    pollDecision true "Notes"
      [{ id := "d1", filename := "a.txt", status := some Status.processing,
         generated_content := [] }]
      (some { id := "d1", filename := "a.txt", status := some Status.processing,
              generated_content := [] }) = some 3000 ∧
    pollDecision true "Notes"
      [{ id := "d1", filename := "a.txt", status := some Status.processing,
         generated_content := [] }] none = some 5000 ∧
    3000 < 5000 :=
  pollDecision_interval
    [{ id := "d1", filename := "a.txt", status := some Status.processing,
       generated_content := [] }]
    { id := "d1", filename := "a.txt", status := some Status.processing,
      generated_content := [] }
    (by decide)

/-- C9. On the initial fetch (empty previous list) the merge equals the
completed-to-null mask: completed documents are stored with `null` status
while processing and failed documents keep their server status; and on any
later fetch, a document whose status was previously cleared to `null` is
kept at `null` even though the server reports `'completed'`. -/
theorem mergeDocuments_initial_and_sticky :
    (∀ serverDocs : List Doc, mergeDocuments [] serverDocs = serverDocs.map maskCompleted) ∧
    (∀ doc : Doc, doc.status = some Status.processing → (maskCompleted doc).status = some Status.processing) ∧
    (∀ doc : Doc, doc.status = some Status.failed → (maskCompleted doc).status = some Status.failed) ∧
    (∀ doc : Doc, doc.status = some Status.completed → (maskCompleted doc).status = none) ∧
    (∀ (prevDocs : List Doc) (doc prevDoc : Doc),
      prevDocs.find? (fun d => d.id == doc.id) = some prevDoc →
      prevDoc.status = none → doc.status = some Status.completed →
      (reconcileDoc prevDocs false doc).status = none) := by
  refine ⟨?_, ?_, ?_, ?_, ?_⟩
  · intro serverDocs
    unfold mergeDocuments
    simp only [List.length_nil]
    apply List.map_congr_left
    intro doc _
    unfold reconcileDoc maskCompleted
    simp
  · intro doc h
    unfold maskCompleted
    simp [h]
  · intro doc h
    unfold maskCompleted
    simp [h]
  · intro doc h
    unfold maskCompleted
    simp [h]
  · intro prevDocs doc prevDoc hfind hprev hdoc
    unfold reconcileDoc
    simp [hfind, hprev, hdoc]

/-- Evaluation of the C9 theorem at a concrete state: a completed and a
processing document on initial load, and a previously-cleared document on a
later fetch. -/
theorem mergeDocuments_initial_and_sticky_witness :
    mergeDocuments []
      [{ id := "d1", filename := "a.txt", status := some Status.completed,
         generated_content := [] },
       { id := "d2", filename := "b.txt", status := some Status.processing,
         generated_content := [] }] =
      [{ id := "d1", filename := "a.txt", status := none, generated_content := [] },
       { id := "d2", filename := "b.txt", status := some Status.processing,
         generated_content := [] }] ∧
    (reconcileDoc
      [{ id := "d1", filename := "a.txt", status := none, generated_content := [] }] false
      { id := "d1", filename := "a.txt", status := some Status.completed,
        generated_content := [] }).status = none := by
  constructor
  · rw [mergeDocuments_initial_and_sticky.1]
    decide
  · exact mergeDocuments_initial_and_sticky.2.2.2.2
      [{ id := "d1", filename := "a.txt", status := none, generated_content := [] }]
      { id := "d1", filename := "a.txt", status := some Status.completed,
        generated_content := [] }
      { id := "d1", filename := "a.txt", status := none, generated_content := [] }
      (by decide) rfl rfl

/-- C10. Refreshing the list never changes which document is selected:
a `null` selection stays `null`, a selected document present in the server
response is replaced by the authoritative server copy, one absent from the
response is kept unchanged, and a non-null selection is never reset to
`null`. -/
theorem reconcileActive_preserves_selection (serverDocs : List Doc) (a : Doc) :
    reconcileActive none serverDocs = none ∧
    (∀ d : Doc, serverDocs.find? (fun d => d.id == a.id) = some d →
      reconcileActive (some a) serverDocs = some d) ∧
    (serverDocs.find? (fun d => d.id == a.id) = none →
      reconcileActive (some a) serverDocs = some a) ∧
    (reconcileActive (some a) serverDocs).isSome = true := by
  refine ⟨rfl, ?_, ?_, ?_⟩
  · intro d hfind
    unfold reconcileActive
    simp [hfind]
  · intro hfind
    unfold reconcileActive
    simp [hfind]
  · unfold reconcileActive
    simp

/-- Evaluation of the C10 theorem at a concrete state: the active document
is replaced by the server copy when found and kept when absent. -/
theorem reconcileActive_preserves_selection_witness :
    reconcileActive
      (some { id := "d1", filename := "a.txt", status := none, generated_content := [] })
      [{ id := "d1", filename := "a.txt", status := some Status.completed,
         generated_content := [] }] =
      some { id := "d1", filename := "a.txt", status := some Status.completed,
             generated_content := [] } ∧
    reconcileActive
      (some { id := "d1", filename := "a.txt", status := none, generated_content := [] })
      [] =
      some { id := "d1", filename := "a.txt", status := none, generated_content := [] } := by
  constructor
  · exact (reconcileActive_preserves_selection
      [{ id := "d1", filename := "a.txt", status := some Status.completed,
         generated_content := [] }]
      { id := "d1", filename := "a.txt", status := none, generated_content := [] }).2.1
      { id := "d1", filename := "a.txt", status := some Status.completed,
        generated_content := [] } (by decide)
  · exact (reconcileActive_preserves_selection []
      { id := "d1", filename := "a.txt", status := none, generated_content := [] }).2.2.1
      (by decide)

/-! ## Optimistic upload (App.js lines 2002-2025)

`handleUpload` first prepends a placeholder document with id
`temp-${Date.now()}`, status `'processing'` and empty `generated_content`;
on success it maps the list replacing the entry whose id equals the
placeholder's id by the server document; on failure it filters the list by
`doc.id !== `temp-${Date.now()}`` — with `Date.now()` re-evaluated at
failure time. Times are made explicit parameters. -/

/-- The optimistic placeholder created at millisecond `t` for `filename`
(App.js lines 2005-2011). -/
def tempDoc (t : Nat) (filename : String) : Doc :=
  { id := "temp-" ++ toString t, filename := filename,
    status := some Status.processing, generated_content := [] }

/-- The optimistic insert: the placeholder is prepended to the previous
list (App.js line 2012). -/
def uploadOptimistic (prevDocs : List Doc) (t : Nat) (filename : String) : List Doc :=
  tempDoc t filename :: prevDocs

/-- The success continuation: every entry whose id is the placeholder id
for creation time `t` is replaced by the server's document (App.js lines
2016-2018). -/
def uploadResolveSuccess (prevDocs : List Doc) (t : Nat) (newDoc : Doc) : List Doc :=
  prevDocs.map (fun doc => if doc.id == "temp-" ++ toString t then newDoc else doc)

/-- The failure continuation: the list is filtered by the placeholder id
recomputed from the clock at failure time `tCatch` (App.js line 2022). -/
def uploadResolveFailure (prevDocs : List Doc) (tCatch : Nat) : List Doc :=
  prevDocs.filter (fun doc => doc.id != "temp-" ++ toString tCatch)

/-- C5. The failure path does not remove the placeholder: with the upload
started at clock value 1000 and the failure handled at clock value 1001,
the placeholder id `temp-1000` is filtered against `temp-1001`, so the
`'processing'` placeholder remains in the list (the code's own comment says
it is removed). The success path does replace it. -/
theorem uploadResolveFailure_keeps_placeholder :
    uploadResolveFailure (uploadOptimistic [] 1000 "a.txt") 1001 =
      [tempDoc 1000 "a.txt"] ∧
    (tempDoc 1000 "a.txt").status = some Status.processing ∧
    uploadResolveSuccess (uploadOptimistic [] 1000 "a.txt") 1000
      { id := "d1", filename := "a.txt", status := some Status.uploaded,
        generated_content := [] } =
      [{ id := "d1", filename := "a.txt", status := some Status.uploaded,
         generated_content := [] }] := by
  refine ⟨?_, rfl, ?_⟩ <;> decide

/-! ## Content generation updates

The current app's `handleContentGenerated` (App.js lines 2027-2045) maps
the document list through `updateDocs`: the target document's
`generated_content` is filtered to drop entries of the incoming content
type, then the new content is appended. The first app version's handler
(App.js lines 496-510) appends without filtering. -/

/-- Replacement performed by the current handler for the target document's
content list (App.js lines 2031-2034): drop entries of the same type, then
append the new one. -/
def replaceContent (existingContent : List GeneratedContent)
    (newContent : GeneratedContent) : List GeneratedContent :=
  existingContent.filter (fun c => c.contentType != newContent.contentType) ++ [newContent]

/-- The `updateDocs` list update of the current `handleContentGenerated`
(App.js lines 2029-2043, state part): the document with the given id gets
the replaced content list, all others are unchanged. -/
def updateDocs (prevDocs : List Doc) (docId : String)
    (newContent : GeneratedContent) : List Doc :=
  prevDocs.map (fun doc =>
    if doc.id == docId then
      { doc with generated_content := replaceContent doc.generated_content newContent }
    else doc)

/-- The list update of the first app version's `handleContentGenerated`
(App.js lines 496-510, state part): the new content is appended to the
target document's list without removing the existing entry of that type. -/
def updateDocsV1 (prevDocs : List Doc) (docId : String)
    (newContent : GeneratedContent) : List Doc :=
  prevDocs.map (fun doc =>
    if doc.id == docId then
      { doc with generated_content := doc.generated_content ++ [newContent] }
    else doc)

/-- A content list holds at most one entry per content type. -/
def contentOk (l : List GeneratedContent) : Bool :=
  (l.countP (fun c => c.contentType == ContentType.notes) ≤ 1 : Bool) &&
  (l.countP (fun c => c.contentType == ContentType.summary) ≤ 1 : Bool) &&
  (l.countP (fun c => c.contentType == ContentType.quiz) ≤ 1 : Bool)

/-- In `replaceContent l c`, entries of the incoming content type are
counted exactly once. -/
theorem countP_replaceContent_same (l : List GeneratedContent) (c : GeneratedContent) :
    (replaceContent l c).countP (fun x => x.contentType == c.contentType) = 1 := by
  unfold replaceContent
  rw [List.countP_append]
  have hz : (l.filter (fun x => x.contentType != c.contentType)).countP
      (fun x => x.contentType == c.contentType) = 0 := by
    rw [List.countP_eq_zero]
    intro a ha
    have := (List.mem_filter.mp ha).2
    simpa [bne_iff_ne] using this
  simp [hz]

/-- In `replaceContent l c`, counts of every other content type do not
increase. -/
theorem countP_replaceContent_other (l : List GeneratedContent) (c : GeneratedContent)
    (ct : ContentType) (h : ct ≠ c.contentType) :
    (replaceContent l c).countP (fun x => x.contentType == ct) ≤
      l.countP (fun x => x.contentType == ct) := by
  unfold replaceContent
  rw [List.countP_append]
  have hone : ([c].countP (fun x => x.contentType == ct)) = 0 := by
    simp [Ne.symm h]
  rw [hone, Nat.add_zero]
  calc (l.filter (fun x => x.contentType != c.contentType)).countP
        (fun x => x.contentType == ct)
      ≤ l.countP (fun x => x.contentType == ct) := by
        rw [List.countP_filter]
        exact List.countP_mono_left (fun a _ hpa => by
          simp only [Bool.and_eq_true] at hpa
          exact hpa.1)

/-- `replaceContent` preserves the at-most-one-entry-per-type invariant. -/
theorem contentOk_replaceContent (l : List GeneratedContent) (c : GeneratedContent)
    (h : contentOk l = true) : contentOk (replaceContent l c) = true := by
  unfold contentOk at h ⊢
  simp only [Bool.and_eq_true, decide_eq_true_eq] at h ⊢
  obtain ⟨⟨hn, hs⟩, hq⟩ := h
  cases hc : c.contentType with
  | notes =>
    refine ⟨⟨?_, ?_⟩, ?_⟩
    · rw [← hc]; exact Nat.le_of_eq (countP_replaceContent_same l c)
    · exact le_trans (countP_replaceContent_other l c _ (by simp [hc])) hs
    · exact le_trans (countP_replaceContent_other l c _ (by simp [hc])) hq
  | summary =>
    refine ⟨⟨?_, ?_⟩, ?_⟩
    · exact le_trans (countP_replaceContent_other l c _ (by simp [hc])) hn
    · rw [← hc]; exact Nat.le_of_eq (countP_replaceContent_same l c)
    · exact le_trans (countP_replaceContent_other l c _ (by simp [hc])) hq
  | quiz =>
    refine ⟨⟨?_, ?_⟩, ?_⟩
    · exact le_trans (countP_replaceContent_other l c _ (by simp [hc])) hn
    · exact le_trans (countP_replaceContent_other l c _ (by simp [hc])) hs
    · rw [← hc]; exact Nat.le_of_eq (countP_replaceContent_same l c)

/-- The only entry of the incoming content type in `replaceContent l c` is
`c` itself. -/
theorem mem_replaceContent_same_type (l : List GeneratedContent) (c x : GeneratedContent)
    (hx : x ∈ replaceContent l c) (ht : x.contentType = c.contentType) : x = c := by
  unfold replaceContent at hx
  rcases List.mem_append.mp hx with hin | hin
  · exact absurd ht (by simpa [bne_iff_ne] using (List.mem_filter.mp hin).2)
  · simpa using hin

/-- C1 (counterexample). The first app version's `handleContentGenerated`
appends instead of replacing: starting from a document holding one summary
entry, delivering a second summary result through the first version's
update leaves two summary entries in the document's content list, so the
claim as stated fails for that handler. -/
theorem updateDocsV1_appends_counterexample :
    updateDocsV1
      [{ id := "d1", filename := "a.txt", status := none,
         generated_content := [{ contentType := ContentType.summary, contentData := "s1" }] }]
      "d1" { contentType := ContentType.summary, contentData := "s2" } =
      [{ id := "d1", filename := "a.txt", status := none,
         generated_content :=
           [{ contentType := ContentType.summary, contentData := "s1" },
            { contentType := ContentType.summary, contentData := "s2" }] }] ∧
    ([{ contentType := ContentType.summary, contentData := "s1" },
      { contentType := ContentType.summary, contentData := "s2" }] :
        List GeneratedContent).countP
      (fun c => c.contentType == ContentType.summary) = 2 := by
  constructor <;> decide

/-- C1 (amended). The current app version's `handleContentGenerated`
maintains the at-most-one-entry-per-(document, contentType) invariant:
if every document satisfies it before the update, every document satisfies
it after, and the target document holds exactly one entry of the incoming
content type. -/
theorem updateDocs_preserves_contentOk (prevDocs : List Doc) (docId : String)
    (newContent : GeneratedContent)
    (h : ∀ d ∈ prevDocs, contentOk d.generated_content = true) :
    (∀ d ∈ updateDocs prevDocs docId newContent, contentOk d.generated_content = true) ∧
    (∀ d ∈ updateDocs prevDocs docId newContent, d.id = docId →
      d.generated_content.countP
        (fun x => x.contentType == newContent.contentType) = 1) := by
  constructor
  · intro d hd
    obtain ⟨a, ha, rfl⟩ := List.mem_map.mp hd
    by_cases hid : a.id == docId
    · simp only [hid, if_pos]
      exact contentOk_replaceContent a.generated_content newContent (h a ha)
    · simp only [hid, if_neg, Bool.false_eq_true, not_false_iff]
      exact h a ha
  · intro d hd hdid
    obtain ⟨a, ha, rfl⟩ := List.mem_map.mp hd
    by_cases hid : a.id == docId
    · simp only [hid, if_pos]
      exact countP_replaceContent_same a.generated_content newContent
    · exfalso
      simp only [hid, Bool.false_eq_true, if_neg, not_false_iff] at hdid
      exact (by simpa [beq_iff_eq] using hid : a.id ≠ docId) hdid

/-- Evaluation of the amended C1 theorem: delivering a summary result for a
document that already holds one summary entry leaves one entry of each
present type. -/
theorem updateDocs_preserves_contentOk_witness :
    (∀ d ∈ updateDocs
        [{ id := "d1", filename := "a.txt", status := none,
           generated_content :=
             [{ contentType := ContentType.summary, contentData := "s1" }] }]
        "d1" { contentType := ContentType.summary, contentData := "s2" },
      contentOk d.generated_content = true) ∧
    (∀ d ∈ updateDocs
        [{ id := "d1", filename := "a.txt", status := none,
           generated_content :=
             [{ contentType := ContentType.summary, contentData := "s1" }] }]
        "d1" { contentType := ContentType.summary, contentData := "s2" },
      d.id = "d1" →
      d.generated_content.countP
        (fun x => x.contentType == ContentType.summary) = 1) :=
  updateDocs_preserves_contentOk
    [{ id := "d1", filename := "a.txt", status := none,
       generated_content :=
         [{ contentType := ContentType.summary, contentData := "s1" }] }]
    "d1" { contentType := ContentType.summary, contentData := "s2" }
    (by decide)

/-- C8. Two successive summary generations through the current
`handleContentGenerated` leave exactly one summary entry in the target
document's content list, and that entry is the second result. -/
theorem updateDocs_summary_last_write_wins (prevDocs : List Doc) (docId : String)
    (c1 c2 : GeneratedContent)
    (h1 : c1.contentType = ContentType.summary)
    (h2 : c2.contentType = ContentType.summary) :
    ∀ d ∈ updateDocs (updateDocs prevDocs docId c1) docId c2, d.id = docId →
      d.generated_content.countP (fun x => x.contentType == ContentType.summary) = 1 ∧
      (∀ x ∈ d.generated_content, x.contentType = ContentType.summary → x = c2) := by
  intro d hd hdid
  obtain ⟨a, ha, rfl⟩ := List.mem_map.mp hd
  by_cases hid : a.id == docId
  · simp only [hid, if_pos]
    constructor
    · have := countP_replaceContent_same a.generated_content c2
      rwa [h2] at this
    · intro x hx hxt
      exact mem_replaceContent_same_type a.generated_content c2 x hx (by rw [hxt, h2])
  · exfalso
    simp only [hid, Bool.false_eq_true, if_neg, not_false_iff] at hdid
    exact (by simpa [beq_iff_eq] using hid : a.id ≠ docId) hdid

/-- Evaluation of the C8 theorem: two summary generations on a document
that starts with notes content leave exactly one summary entry, equal to
the second result. -/
theorem updateDocs_summary_last_write_wins_witness :
    ([{ contentType := ContentType.notes, contentData := "n" },
      { contentType := ContentType.summary, contentData := "s2" }] :
        List GeneratedContent).countP
      (fun x => x.contentType == ContentType.summary) = 1 :=
  (updateDocs_summary_last_write_wins
    [{ id := "d1", filename := "a.txt", status := none,
       generated_content := [{ contentType := ContentType.notes, contentData := "n" }] }]
    "d1" { contentType := ContentType.summary, contentData := "s1" }
    { contentType := ContentType.summary, contentData := "s2" } rfl rfl
    { id := "d1", filename := "a.txt", status := none,
      generated_content :=
        [{ contentType := ContentType.notes, contentData := "n" },
         { contentType := ContentType.summary, contentData := "s2" }] }
    (by decide) rfl).1

/-! ## Delete (App.js lines 2059-2072, 743-754)

`handleDeleteDocument` awaits `apiClient.deleteDocument`, which throws when
the response is not ok. On success it filters the deleted id out of the
list and clears the active selection when it pointed at the deleted
document; on failure (the catch block) it only logs and alerts, leaving
both the list and the selection untouched. -/

/-- The client view the delete handler updates: the `documents` list and
the `activeDocument` selection. -/
structure ClientView where
  documents : List Doc
  activeDocument : Option Doc
deriving DecidableEq, Repr

/-- The delete handler (App.js lines 2059-2072): `success` tells whether
`apiClient.deleteDocument` resolved (response ok) or threw. -/
def handleDeleteDocument (st : ClientView) (docId : String) (success : Bool) : ClientView :=
  if success then
    { documents := st.documents.filter (fun doc => doc.id != docId),
      activeDocument :=
        if st.activeDocument.map Doc.id == some docId then none
        else st.activeDocument }
  else st

/-- C7. After a successful delete the document no longer appears in the
list while every other document is kept, the active selection is cleared
exactly when it pointed at the deleted document; after a failed delete the
whole client view is unchanged. -/
theorem handleDeleteDocument_spec (st : ClientView) (docId : String) :
    (∀ d ∈ (handleDeleteDocument st docId true).documents, d.id ≠ docId) ∧
    (∀ d ∈ st.documents, d.id ≠ docId → d ∈ (handleDeleteDocument st docId true).documents) ∧
    (st.activeDocument.map Doc.id = some docId →
      (handleDeleteDocument st docId true).activeDocument = none) ∧
    (st.activeDocument.map Doc.id ≠ some docId →
      (handleDeleteDocument st docId true).activeDocument = st.activeDocument) ∧
    handleDeleteDocument st docId false = st := by
  refine ⟨?_, ?_, ?_, ?_, rfl⟩
  · intro d hd
    simp only [handleDeleteDocument, if_true, List.mem_filter, bne_iff_ne] at hd
    exact hd.2
  · intro d hd hne
    simp only [handleDeleteDocument, if_pos]
    exact List.mem_filter.mpr ⟨hd, by simpa [bne_iff_ne] using hne⟩
  · intro h
    simp [handleDeleteDocument, h]
  · intro h
    simp [handleDeleteDocument, h]

/-- Evaluation of the C7 theorem at a concrete state: deleting the active
document removes it and clears the selection, and a failed delete changes
nothing. -/
theorem handleDeleteDocument_spec_witness :
    (∀ d ∈ (handleDeleteDocument
        { documents := [{ id := "d1", filename := "a.txt", status := none,
                          generated_content := [] }],
          activeDocument := some { id := "d1", filename := "a.txt", status := none,
                                   generated_content := [] } }
        "d1" true).documents, d.id ≠ "d1") ∧
    (handleDeleteDocument
        { documents := [{ id := "d1", filename := "a.txt", status := none,
                          generated_content := [] }],
          activeDocument := some { id := "d1", filename := "a.txt", status := none,
                                   generated_content := [] } }
        "d1" true).activeDocument = none ∧
    handleDeleteDocument
        { documents := [{ id := "d1", filename := "a.txt", status := none,
                          generated_content := [] }],
          activeDocument := some { id := "d1", filename := "a.txt", status := none,
                                   generated_content := [] } }
        "d1" false =
      { documents := [{ id := "d1", filename := "a.txt", status := none,
                        generated_content := [] }],
        activeDocument := some { id := "d1", filename := "a.txt", status := none,
                                 generated_content := [] } } :=
  ⟨(handleDeleteDocument_spec
      { documents := [{ id := "d1", filename := "a.txt", status := none,
                        generated_content := [] }],
        activeDocument := some { id := "d1", filename := "a.txt", status := none,
                                 generated_content := [] } } "d1").1,
   (handleDeleteDocument_spec
      { documents := [{ id := "d1", filename := "a.txt", status := none,
                        generated_content := [] }],
        activeDocument := some { id := "d1", filename := "a.txt", status := none,
                                 generated_content := [] } } "d1").2.2.1 (by decide),
   (handleDeleteDocument_spec
      { documents := [{ id := "d1", filename := "a.txt", status := none,
                        generated_content := [] }],
        activeDocument := some { id := "d1", filename := "a.txt", status := none,
                                 generated_content := [] } } "d1").2.2.2.2⟩

/-! ## Completed-status clearing timer (App.js lines 1956-1973)

The effect collects the documents whose displayed status is
`'completed'` and, for each, schedules a `setTimeout` of 3000 ms whose
callback maps the list, setting the status of that document to `null`
when it is still `'completed'`. The callback only calls `setDocuments`;
no API call is made, so the server's state is untouched. -/

/-- The delay passed to `setTimeout` in the completed-status effect
(App.js line 1968). -/
def completedStatusClearDelayMs : Nat := 3000

/-- The timer callback's list update (App.js lines 1963-1967): the
document with the given id has its status set to `null` when it is still
`'completed'`; every other document is unchanged. -/
def clearCompletedStatus (prevDocs : List Doc) (docId : String) : List Doc :=
  prevDocs.map (fun d =>
    if d.id == docId && d.status == some Status.completed then { d with status := none }
    else d)

/-- The combined client and server document state, used to state that
client-local operations leave the server untouched. -/
structure SyncView where
  clientDocs : List Doc
  serverDocs : List Doc
deriving DecidableEq, Repr

/-- Firing one completed-status timer: a pure client update built from
`clearCompletedStatus`; the server component is untouched because the
callback performs no API call. -/
def completedTimerFire (sys : SyncView) (docId : String) : SyncView :=
  { clientDocs := clearCompletedStatus sys.clientDocs docId,
    serverDocs := sys.serverDocs }

/-- C6. The completed-status timer fires after exactly 3000 ms, it sets the
displayed status of the targeted still-completed document to `null` while
leaving every other list entry unchanged, and it is client-local: the
server's document state is identical before and after the firing. -/
theorem completedTimerFire_spec :
    completedStatusClearDelayMs = 3000 ∧
    (∀ (sys : SyncView) (docId : String),
      (completedTimerFire sys docId).serverDocs = sys.serverDocs) ∧
    (∀ (prevDocs : List Doc) (docId : String) (i : Nat) (h : i < prevDocs.length)
      (h2 : i < (clearCompletedStatus prevDocs docId).length),
      (clearCompletedStatus prevDocs docId).get ⟨i, h2⟩ =
        (if (prevDocs.get ⟨i, h⟩).id = docId ∧
            (prevDocs.get ⟨i, h⟩).status = some Status.completed then
          { prevDocs.get ⟨i, h⟩ with status := none }
        else prevDocs.get ⟨i, h⟩)) := by
  refine ⟨rfl, fun sys docId => rfl, ?_⟩
  intro prevDocs docId i h h2
  simp only [clearCompletedStatus, List.get_eq_getElem, List.getElem_map]
  by_cases hc : prevDocs[i].id = docId ∧ prevDocs[i].status = some Status.completed
  · rw [if_pos hc]
    have : (prevDocs[i].id == docId && (prevDocs[i].status == some Status.completed)) = true := by
      simp [hc.1, hc.2]
    rw [this]
    simp
  · rw [if_neg hc]
    have : (prevDocs[i].id == docId && (prevDocs[i].status == some Status.completed)) = false := by
      rcases not_and_or.mp hc with h1 | h1 <;> simp [h1]
    rw [this]
    simp

/-- Evaluation of the C6 theorem at a concrete state: firing the timer for
a completed document clears its displayed status and leaves the server
list unchanged. -/
theorem completedTimerFire_spec_witness :
    (completedTimerFire
      { clientDocs := [{ id := "d1", filename := "a.txt",
                         status := some Status.completed, generated_content := [] }],
        serverDocs := [{ id := "d1", filename := "a.txt",
                         status := some Status.completed, generated_content := [] }] }
      "d1").serverDocs =
      [{ id := "d1", filename := "a.txt", status := some Status.completed,
         generated_content := [] }] ∧
    (clearCompletedStatus
      [{ id := "d1", filename := "a.txt", status := some Status.completed,
         generated_content := [] }] "d1").get ⟨0, by decide⟩ =
      { id := "d1", filename := "a.txt", status := none, generated_content := [] } := by
  constructor
  · exact completedTimerFire_spec.2.1
      { clientDocs := [{ id := "d1", filename := "a.txt",
                         status := some Status.completed, generated_content := [] }],
        serverDocs := [{ id := "d1", filename := "a.txt",
                         status := some Status.completed, generated_content := [] }] }
      "d1"
  · rw [completedTimerFire_spec.2.2
      [{ id := "d1", filename := "a.txt", status := some Status.completed,
         generated_content := [] }] "d1" 0 (by decide) (by decide)]
    decide

/-! ## Status lifecycle observed through polling (claim C2)

The ingestion status is produced by the backend, observed by the client
through `fetchDocuments`, and cosmetically cleared by the completed-status
timer. The backend is not under src/, so its state machine is modelled
from the spec; the client side is the status part of the reconciliation
and timer logic embedded above, specialised to a single document (a fresh
upload starts a new document with a new id, hence a new trace). -/

/-- Modelled from the spec: the backend Document Store state machine
(spec section 4.5; the backend code is not under src/) — `uploaded`
advances to `processing` when the parse job starts, `processing` to
`completed` on parse success or `failed` on permanent failure, and both
`completed` and `failed` are terminal: no transition re-enters
`processing` without an external re-upload. `ok` selects between parse
success and failure. -/
def serverAdvance (s : Status) (ok : Bool) : Status :=
  match s with
  | Status.uploaded => Status.processing
  | Status.processing => if ok then Status.completed else Status.failed
  | Status.completed => Status.completed
  | Status.failed => Status.failed

/-- The status field computed by the per-document reconciliation of
`fetchDocuments` (App.js lines 1893-1904) for one document: `prevStatus`
is the status previously stored for it (`none` when the document is not
yet in the client list, `some none` when its status was cleared to
`null`), `serverStatus` the status the server reports. -/
def reconcileStatus (prevStatus : Option (Option Status)) (isInitialLoad : Bool)
    (serverStatus : Status) : Option Status :=
  match prevStatus with
  | some ps =>
    if ps == none && serverStatus == Status.completed then none
    else if isInitialLoad && serverStatus == Status.completed then none
    else some serverStatus
  | none =>
    if isInitialLoad && serverStatus == Status.completed then none
    else some serverStatus

/-- The status update performed by the completed-status timer callback
(App.js lines 1963-1967) on the document it targets: a `'completed'`
status becomes `null`, anything else is unchanged. -/
def timerClearStatus (v : Option Status) : Option Status :=
  if v == some Status.completed then none else v

/-- Agreement of the single-document `reconcileStatus` with the embedded
list-level `reconcileDoc`: for a server document with a real status, the
reconciled status is `reconcileStatus` of the previously stored status. -/
theorem reconcileDoc_status_eq (prevDocs : List Doc) (isInitialLoad : Bool)
    (doc : Doc) (s : Status) (hs : doc.status = some s) :
    (reconcileDoc prevDocs isInitialLoad doc).status =
      reconcileStatus ((prevDocs.find? (fun d => d.id == doc.id)).map Doc.status)
        isInitialLoad s := by
  obtain ⟨did, dfn, dst, dgc⟩ := doc
  simp only at hs
  subst hs
  unfold reconcileDoc reconcileStatus
  cases hfind : prevDocs.find? (fun d => d.id == did) with
  | none =>
    cases isInitialLoad <;> by_cases hsc : s = Status.completed <;>
      simp [hsc]
  | some prevDoc =>
    cases isInitialLoad <;> by_cases hsc : s = Status.completed <;>
      by_cases hps : prevDoc.status = none <;>
        simp [hsc, hps]

/-- Agreement of `timerClearStatus` with the embedded timer callback
`clearCompletedStatus` on the targeted document. -/
theorem clearCompletedStatus_status_eq (d : Doc) (docId : String) (hid : d.id = docId) :
    (clearCompletedStatus [d] docId).map Doc.status = [timerClearStatus d.status] := by
  subst hid
  unfold clearCompletedStatus timerClearStatus
  by_cases hc : d.status = some Status.completed <;> simp [hc]

/-- Combined state of one document: the server's ingestion status and the
client's stored view of it (`none` = not yet fetched, `some none` = status
cleared to `null`, `some (some s)` = status `s` displayed). -/
structure DocSyncState where
  server : Status
  view : Option (Option Status)
deriving DecidableEq, Repr

/-- One observable event in a document's life: a backend transition, a
client fetch (with the initial-load flag of that fetch), or the firing of
the completed-status timer. -/
inductive SyncEvent where
  | serverStep (ok : Bool)
  | fetch (isInitialLoad : Bool)
  | timerFire
deriving DecidableEq, Repr

/-- The transition function: backend steps move the server status by the
spec-modelled machine, fetches reconcile the stored view against the
server status, timer firings clear a displayed `'completed'` status. -/
def syncStep (st : DocSyncState) (e : SyncEvent) : DocSyncState :=
  match e with
  | SyncEvent.serverStep ok => { st with server := serverAdvance st.server ok }
  | SyncEvent.fetch isInitialLoad =>
    { st with view := some (reconcileStatus st.view isInitialLoad st.server) }
  | SyncEvent.timerFire => { st with view := st.view.map timerClearStatus }

/-- The state of a freshly uploaded document: server status `uploaded`,
not yet present in the client list. -/
def initialDocSync : DocSyncState := { server := Status.uploaded, view := none }

/-- The state after a trace of events starting from a fresh upload. -/
def runSync (evs : List SyncEvent) : DocSyncState :=
  evs.foldl syncStep initialDocSync

/-- Forward-progress rank of an ingestion status; the two terminal
statuses share the top rank. -/
def statusRank : Status → Nat
  | Status.uploaded => 0
  | Status.processing => 1
  | Status.completed => 2
  | Status.failed => 2

/-- Observation rank of the client's view: not-yet-fetched sits at the
bottom, real statuses follow the lifecycle order, and the cleared (`null`
after `'completed'`) display sits above `completed`. -/
def viewRank : Option (Option Status) → Nat
  | none => 0
  | some none => 3
  | some (some s) => statusRank s

/-- Reachability invariant of the sync machine: a cleared view implies the
server is at `completed`, and a displayed status never ranks above the
server's current status. -/
def syncInvB (st : DocSyncState) : Bool :=
  match st.view with
  | none => true
  | some none => st.server == Status.completed
  | some (some s) => s == st.server || statusRank s < statusRank st.server

/-- One step preserves the reachability invariant (finite case check). -/
theorem syncStep_preserves_inv :
    ∀ (st : DocSyncState) (e : SyncEvent),
      syncInvB st = true → syncInvB (syncStep st e) = true := by
  intro st e
  obtain ⟨server, view⟩ := st
  cases e with
  | serverStep ok => cases server <;> cases ok <;>
      rcases view with _ | _ | s <;> first | decide | (cases s <;> decide)
  | fetch isInitialLoad => cases server <;> cases isInitialLoad <;>
      rcases view with _ | _ | s <;> first | decide | (cases s <;> decide)
  | timerFire => cases server <;>
      rcases view with _ | _ | s <;> first | decide | (cases s <;> decide)

/-- One step never decreases the observation rank (finite case check). -/
theorem syncStep_view_mono :
    ∀ (st : DocSyncState) (e : SyncEvent),
      syncInvB st = true → viewRank st.view ≤ viewRank (syncStep st e).view := by
  intro st e
  obtain ⟨server, view⟩ := st
  cases e with
  | serverStep ok => cases server <;> cases ok <;>
      rcases view with _ | _ | s <;> first | decide | (cases s <;> decide)
  | fetch isInitialLoad => cases server <;> cases isInitialLoad <;>
      rcases view with _ | _ | s <;> first | decide | (cases s <;> decide)
  | timerFire => cases server <;>
      rcases view with _ | _ | s <;> first | decide | (cases s <;> decide)

/-- One step keeps a terminal server status unchanged (finite check of the
spec-modelled machine). -/
theorem syncStep_server_terminal :
    ∀ (st : DocSyncState) (e : SyncEvent),
      (st.server = Status.completed ∨ st.server = Status.failed) →
      (syncStep st e).server = st.server := by
  intro st e
  obtain ⟨server, view⟩ := st
  cases e <;> cases server <;> simp [syncStep, serverAdvance]

/-- Running any further trace from an invariant state keeps the invariant
and never decreases the observation rank. -/
theorem runSync_from_mono (evs2 : List SyncEvent) :
    ∀ st : DocSyncState, syncInvB st = true →
      syncInvB (evs2.foldl syncStep st) = true ∧
      viewRank st.view ≤ viewRank (evs2.foldl syncStep st).view ∧
      ((st.server = Status.completed ∨ st.server = Status.failed) →
        (evs2.foldl syncStep st).server = st.server) := by
  induction evs2 with
  | nil => exact fun st h => ⟨h, le_refl _, fun _ => rfl⟩
  | cons e rest ih =>
    intro st h
    have hstep := syncStep_preserves_inv st e h
    obtain ⟨hinv, hmono, hterm⟩ := ih (syncStep st e) hstep
    refine ⟨hinv, le_trans (syncStep_view_mono st e h) hmono, ?_⟩
    intro hts
    rw [List.foldl_cons, hterm ?_, syncStep_server_terminal st e hts]
    rw [syncStep_server_terminal st e hts]
    exact hts

/-- Every state reachable from a fresh upload satisfies the invariant. -/
theorem runSync_inv (evs : List SyncEvent) : syncInvB (runSync evs) = true := by
  have := (runSync_from_mono evs initialDocSync (by decide)).1
  simpa [runSync] using this

/-- C2. Along every event trace of a document — backend transitions
following the spec's state machine, client fetch reconciliations and
completed-status timer clearings — the client-observed status only moves
forward in the lifecycle order (the cleared `null` display ranks as the
post-`completed` cosmetic state), and once the server status is terminal
(`completed` or `failed`) it never changes again under any further
events. -/
theorem runSync_forward_only (evs evs2 : List SyncEvent) :
    viewRank (runSync evs).view ≤ viewRank (runSync (evs ++ evs2)).view ∧
    ((runSync evs).server = Status.completed ∨ (runSync evs).server = Status.failed →
      (runSync (evs ++ evs2)).server = (runSync evs).server) := by
  have hrw : runSync (evs ++ evs2) = evs2.foldl syncStep (runSync evs) := by
    simp [runSync, List.foldl_append]
  obtain ⟨_, hmono, hterm⟩ := runSync_from_mono evs2 (runSync evs) (runSync_inv evs)
  rw [hrw]
  exact ⟨hmono, hterm⟩

/-- Evaluation of the C2 theorem on a concrete trace: after upload, parse
start and parse success the server is at `completed`; a fetch and a timer
firing move the observed view from nothing to the cleared display while
the server status stays `completed`. -/
theorem runSync_forward_only_witness :
    viewRank (runSync [SyncEvent.serverStep true, SyncEvent.serverStep true]).view ≤
      viewRank (runSync ([SyncEvent.serverStep true, SyncEvent.serverStep true] ++
        [SyncEvent.fetch true, SyncEvent.timerFire])).view ∧
    (runSync ([SyncEvent.serverStep true, SyncEvent.serverStep true] ++
        [SyncEvent.fetch true, SyncEvent.timerFire])).server =
      (runSync [SyncEvent.serverStep true, SyncEvent.serverStep true]).server :=
  ⟨(runSync_forward_only [SyncEvent.serverStep true, SyncEvent.serverStep true]
      [SyncEvent.fetch true, SyncEvent.timerFire]).1,
   (runSync_forward_only [SyncEvent.serverStep true, SyncEvent.serverStep true]
      [SyncEvent.fetch true, SyncEvent.timerFire]).2 (Or.inl (by decide))⟩
